import Mathlib

/-!
Verification development for the Synchron-to-calendar synchronisation script
(`src/main.py`).  The definitions below are a shallow embedding of the
program: appointments, managed calendar events, the md5-based identity
generator, the `needs_update` comparison, and the reconciliation routine
`process_calendar_events`, together with the orchestration in `main`.
External collaborators (HTTP session, Google calendar client, Pushover) are
modelled by their observable effects: the list of gateway calls attempted and
the list of notifications sent.
-/

set_option linter.unusedVariables false

namespace SynchronSync

/-! ## Time model

All date/times in the script live in the fixed Europe/Berlin timezone
(`tz.localize(datetime.strptime(..., DD.MM.YYYY HH:MM))`).  We model an
instant as the localized wall-clock tuple; equality and the lexicographic
order correspond to equality and order of the underlying instants. -/

structure BerlinTime where
  year : Nat
  month : Nat
  day : Nat
  hour : Nat
  minute : Nat
deriving DecidableEq, Repr

/-- Comparison of two Berlin-localized instants (lexicographic on the
wall-clock components), used for the `>=` comparisons in the script. -/
def BerlinTime.ble (s t : BerlinTime) : Bool :=
  if s.year < t.year then true else if t.year < s.year then false
  else if s.month < t.month then true else if t.month < s.month then false
  else if s.day < t.day then true else if t.day < s.day then false
  else if s.hour < t.hour then true else if t.hour < s.hour then false
  else decide (s.minute ≤ t.minute)

theorem BerlinTime.ble_refl (t : BerlinTime) : BerlinTime.ble t t = true := by
  simp [BerlinTime.ble]

/-! ## MD5 (embedding of `hashlib.md5(...).hexdigest()`)

`generate_appointment_id` hashes the UTF-8 bytes of its input string with
MD5 and renders the digest as 32 lowercase hex characters.  Machine words
are `Nat`s reduced mod `2^32`. -/

/-- Truncate to a 32-bit word. -/
def w32 (n : Nat) : Nat := n % 4294967296

/-- 32-bit left rotation. -/
def rotl32 (x s : Nat) : Nat := w32 (x <<< s) ||| (w32 x >>> (32 - s))

/-- The MD5 round nonlinear function (F, G, H, I depending on the round). -/
def md5F (i b c d : Nat) : Nat :=
  if i < 16 then (b &&& c) ||| ((b ^^^ 4294967295) &&& d)
  else if i < 32 then (d &&& b) ||| ((d ^^^ 4294967295) &&& c)
  else if i < 48 then b ^^^ c ^^^ d
  else c ^^^ (b ||| (d ^^^ 4294967295))

/-- The MD5 message-word index schedule. -/
def md5g (i : Nat) : Nat :=
  if i < 16 then i
  else if i < 32 then (5 * i + 1) % 16
  else if i < 48 then (3 * i + 5) % 16
  else (7 * i) % 16

/-- The MD5 per-round shift amounts. -/
def md5s : List Nat :=
  [7, 12, 17, 22, 7, 12, 17, 22, 7, 12, 17, 22, 7, 12, 17, 22,
   5, 9, 14, 20, 5, 9, 14, 20, 5, 9, 14, 20, 5, 9, 14, 20,
   4, 11, 16, 23, 4, 11, 16, 23, 4, 11, 16, 23, 4, 11, 16, 23,
   6, 10, 15, 21, 6, 10, 15, 21, 6, 10, 15, 21, 6, 10, 15, 21]

/-- The MD5 sine-derived round constants. -/
def md5K : List Nat :=
  [0xd76aa478, 0xe8c7b756, 0x242070db, 0xc1bdceee,
   0xf57c0faf, 0x4787c62a, 0xa8304613, 0xfd469501,
   0x698098d8, 0x8b44f7af, 0xffff5bb1, 0x895cd7be,
   0x6b901122, 0xfd987193, 0xa679438e, 0x49b40821,
   0xf61e2562, 0xc040b340, 0x265e5a51, 0xe9b6c7aa,
   0xd62f105d, 0x02441453, 0xd8a1e681, 0xe7d3fbc8,
   0x21e1cde6, 0xc33707d6, 0xf4d50d87, 0x455a14ed,
   0xa9e3e905, 0xfcefa3f8, 0x676f02d9, 0x8d2a4c8a,
   0xfffa3942, 0x8771f681, 0x6d9d6122, 0xfde5380c,
   0xa4beea44, 0x4bdecfa9, 0xf6bb4b60, 0xbebfbc70,
   0x289b7ec6, 0xeaa127fa, 0xd4ef3085, 0x04881d05,
   0xd9d4d039, 0xe6db99e5, 0x1fa27cf8, 0xc4ac5665,
   0xf4292244, 0x432aff97, 0xab9423a7, 0xfc93a039,
   0x655b59c3, 0x8f0ccc92, 0xffeff47d, 0x85845dd1,
   0x6fa87e4f, 0xfe2ce6e0, 0xa3014314, 0x4e0811a1,
   0xf7537e82, 0xbd3af235, 0x2ad7d2bb, 0xeb86d391]

/-- Little-endian 32-bit word at index `j` of a 64-byte chunk. -/
def md5word (chunk : List Nat) (j : Nat) : Nat :=
  chunk.getD (4 * j) 0 + 256 * chunk.getD (4 * j + 1) 0 +
    65536 * chunk.getD (4 * j + 2) 0 + 16777216 * chunk.getD (4 * j + 3) 0

/-- One MD5 round applied to the state `(a, b, c, d)`. -/
def md5round (chunk : List Nat) (st : Nat × Nat × Nat × Nat) (i : Nat) :
    Nat × Nat × Nat × Nat :=
  match st with
  | (a, b, c, d) =>
    let f := w32 (md5F i b c d + a + md5K.getD i 0 + md5word chunk (md5g i))
    (d, w32 (b + rotl32 f (md5s.getD i 0)), b, c)

/-- Process one 64-byte chunk: 64 rounds, then add back the incoming state. -/
def md5compress (st : Nat × Nat × Nat × Nat) (chunk : List Nat) :
    Nat × Nat × Nat × Nat :=
  match st, (List.range 64).foldl (md5round chunk) st with
  | (a0, b0, c0, d0), (a, b, c, d) =>
    (w32 (a0 + a), w32 (b0 + b), w32 (c0 + c), w32 (d0 + d))

/-- The 8-byte little-endian encoding of the message bit length. -/
def md5lenBytes (len : Nat) : List Nat :=
  let b := (8 * len) % 18446744073709551616
  [b % 256, b / 256 % 256, b / 65536 % 256, b / 16777216 % 256,
   b / 4294967296 % 256, b / 1099511627776 % 256,
   b / 281474976710656 % 256, b / 72057594037927936 % 256]

/-- MD5 padding: a `0x80` byte, zeros up to 56 mod 64, then the bit length. -/
def md5pad (msg : List Nat) : List Nat :=
  let len := msg.length
  msg ++ 128 :: (List.replicate ((119 - len % 64) % 64) 0 ++ md5lenBytes len)

/-- Split a byte list into 64-byte chunks. -/
def chunks64 (l : List Nat) : List (List Nat) :=
  match l with
  | [] => []
  | b :: rest => ((b :: rest).take 64) :: chunks64 ((b :: rest).drop 64)
termination_by l.length
decreasing_by simp [List.length_drop]; omega

/-- Little-endian byte serialization of a 32-bit word. -/
def wordBytes (w : Nat) : List Nat :=
  [w % 256, w / 256 % 256, w / 65536 % 256, w / 16777216 % 256]

/-- The 16-byte MD5 digest of a byte list. -/
def md5bytes (msg : List Nat) : List Nat :=
  match (chunks64 (md5pad msg)).foldl md5compress
      (0x67452301, 0xefcdab89, 0x98badcfe, 0x10325476) with
  | (a, b, c, d) => wordBytes a ++ wordBytes b ++ wordBytes c ++ wordBytes d

/-- Lowercase hex digit (for arguments below 16). -/
def hexChar (n : Nat) : Char :=
  Nat.digitChar n

/-- Render a byte list as lowercase hex. -/
def bytesToHex (l : List Nat) : String :=
  String.mk (l.foldr (fun b acc => hexChar (b / 16) :: hexChar (b % 16) :: acc) [])

/-- `hashlib.md5(s.encode('utf-8')).hexdigest()`. -/
def md5Hex (s : String) : String :=
  bytesToHex (md5bytes (s.toUTF8.toList.map (fun b => b.toNat)))

theorem md5bytes_cons (msg : List Nat) : ∃ x xs, md5bytes msg = x :: xs := by
  unfold md5bytes
  generalize (chunks64 (md5pad msg)).foldl md5compress
    (0x67452301, 0xefcdab89, 0x98badcfe, 0x10325476) = t
  obtain ⟨a, b, c, d⟩ := t
  exact ⟨_, _, rfl⟩

/-- The hex digest is never the empty string (it always has 32 digits). -/
theorem md5Hex_ne_empty (s : String) : md5Hex s ≠ "" := by
  obtain ⟨x, xs, hx⟩ := md5bytes_cons (s.toUTF8.toList.map (fun b => b.toNat))
  unfold md5Hex bytesToHex
  rw [hx]
  intro h
  rw [show ("" : String) = String.mk [] from rfl, List.foldr_cons] at h
  exact List.noConfusion (congrArg String.data h)

/-! ## Data model -/

/-- A raw appointment as produced by the extractor (`parse_appointments`). -/
structure RawAppointment where
  date : String
  start_time : String
  end_time : String
  studio_name : String
  address : String
  regie : String
deriving DecidableEq, Repr

/-- An appointment enriched by `main` with localized instants and its id. -/
structure Appointment where
  date : String
  start_time : String
  end_time : String
  studio_name : String
  address : String
  regie : String
  start_datetime : BerlinTime
  end_datetime : BerlinTime
  appointment_id : String
deriving DecidableEq, Repr

/-- The raw fields of an enriched appointment (the dict keys
`generate_appointment_id` reads are those of the raw record). -/
def Appointment.toRaw (a : Appointment) : RawAppointment :=
  { date := a.date, start_time := a.start_time, end_time := a.end_time,
    studio_name := a.studio_name, address := a.address, regie := a.regie }

/-- A remote calendar entry.  `marker` models the private extended property
`createdBySynchronScript`, `appointment_id` the private extended property of
the same name (`''` when absent, as in `event.get(...).get(...).get(..., '')`). -/
structure CalendarEvent where
  id : String
  summary : String
  location : String
  description : String
  start : BerlinTime
  «end» : BerlinTime
  marker : Bool
  appointment_id : String
deriving DecidableEq, Repr

/-- The body sent on an insert or update call (the `event` dict built by
`create_google_calendar_event` / `update_google_calendar_event`). -/
structure EventPayload where
  summary : String
  location : String
  description : String
  start : BerlinTime
  «end» : BerlinTime
  marker : Bool
  appointment_id : String
deriving DecidableEq, Repr

/-- A call attempted against the Calendar Gateway. -/
inductive GCall where
  | insert (payload : EventPayload)
  | update (eventId : String) (payload : EventPayload)
  | delete (eventId : String)
deriving DecidableEq, Repr

/-- The provider event id a call mutates (`none` for inserts, which create a
fresh entry). -/
def GCall.targetId : GCall → Option String
  | .insert _ => none
  | .update eventId _ => some eventId
  | .delete eventId => some eventId

/-- A push notification (`send_push_notification(title, message, priority)`). -/
structure Notif where
  title : String
  message : String
  priority : Nat
deriving DecidableEq, Repr

/-! ## Identity generator -/

/-- `generate_appointment_id`: md5 hex digest of
`f"{date}_{studio_name}_{regie}"`. -/
def generate_appointment_id (appointment : RawAppointment) : String :=
  md5Hex (appointment.date ++ "_" ++ appointment.studio_name ++ "_" ++ appointment.regie)

/-! ## Notification formatting -/

/-- `format_notification_message(appointment, action)`. -/
def format_notification_message (appointment : Appointment) (action : String) : String :=
  "Appointment " ++ action ++ ":\nStudio: " ++ appointment.studio_name ++
    "\nDate: " ++ appointment.date ++
    "\nTime: " ++ appointment.start_time ++ " - " ++ appointment.end_time ++
    "\nLocation: " ++ appointment.address ++
    (if appointment.regie ≠ "" then "\nRegie: " ++ appointment.regie else "")

/-- `format_notification_message_from_key(key, action)`. -/
def format_notification_message_from_key
    (key : String × String × String × String) (action : String) : String :=
  match key with
  | (date, start_time, studio_name, regie) =>
    "Appointment " ++ action ++ ":\nStudio: " ++ studio_name ++
      "\nDate: " ++ date ++ "\nTime: " ++ start_time ++
      (if regie ≠ "" then "\nRegie: " ++ regie else "")

/-- Zero-padded two-digit rendering (`strftime` field). -/
def pad2 (n : Nat) : String :=
  if n < 10 then "0" ++ toString n else toString n

/-- Zero-padded four-digit rendering (`strftime` year field). -/
def pad4 (n : Nat) : String :=
  if n < 10 then "000" ++ toString n
  else if n < 100 then "00" ++ toString n
  else if n < 1000 then "0" ++ toString n
  else toString n

/-- `strftime('%d.%m.%Y')` on a Berlin instant. -/
def fmtDate (t : BerlinTime) : String :=
  pad2 t.day ++ "." ++ pad2 t.month ++ "." ++ pad4 t.year

/-- `strftime('%H:%M')` on a Berlin instant. -/
def fmtTime (t : BerlinTime) : String :=
  pad2 t.hour ++ ":" ++ pad2 t.minute

/-- The notification sent after a create. -/
def addedNotif (appointment : Appointment) : Notif :=
  ⟨"New Appointment Added", format_notification_message appointment "added", 1⟩

/-- The notification sent after a successful update. -/
def updatedNotif (appointment : Appointment) : Notif :=
  ⟨"Appointment Updated", format_notification_message appointment "updated", 1⟩

/-- The notification sent in the delete loop, reconstructed from the event's
own fields. -/
def cancelledNotif (event : CalendarEvent) : Notif :=
  ⟨"Appointment Cancelled",
    format_notification_message_from_key
      (fmtDate event.start, fmtTime event.start, event.summary, event.description)
      "cancelled", 1⟩

/-! ## Gateway payloads and the update test -/

/-- The event body built by `create_google_calendar_event` (the id is
recomputed there with `generate_appointment_id`). -/
def create_payload (appointment : Appointment) : EventPayload :=
  { summary := appointment.studio_name, location := appointment.address,
    description := appointment.regie,
    start := appointment.start_datetime, «end» := appointment.end_datetime,
    marker := true,
    appointment_id := generate_appointment_id appointment.toRaw }

/-- The event body built by `update_google_calendar_event` (the id is the one
stored on the appointment). -/
def update_payload (appointment : Appointment) : EventPayload :=
  { summary := appointment.studio_name, location := appointment.address,
    description := appointment.regie,
    start := appointment.start_datetime, «end» := appointment.end_datetime,
    marker := true,
    appointment_id := appointment.appointment_id }

/-- A calendar entry as stored by the provider after an insert or update
with the given body (the provider id is assigned by the gateway). -/
def eventFromPayload (provId : String) (p : EventPayload) : CalendarEvent :=
  { id := provId, summary := p.summary, location := p.location,
    description := p.description, start := p.start, «end» := p.«end»,
    marker := p.marker, appointment_id := p.appointment_id }

/-- `needs_update(event, appointment)`: any of start, end, location, or
whitespace-trimmed description vs. note differs. -/
def needs_update (event : CalendarEvent) (appointment : Appointment) : Bool :=
  decide (event.start ≠ appointment.start_datetime) ||
  decide (event.«end» ≠ appointment.end_datetime) ||
  decide (event.location ≠ appointment.address) ||
  decide (event.description.trim ≠ appointment.regie.trim)

/-! ## Insertion-ordered maps (Python `dict` semantics)

A Python dict keeps insertion order; assigning to an existing key replaces
the value in place (the key keeps its first position).  We model a dict as an
association list with unique keys built by `insertOrUpdate`. -/

/-- `m[k]` / `k in m` on the association-list model of a dict. -/
def lookupKey {α : Type} (k : String) : List (String × α) → Option α
  | [] => none
  | p :: rest => if p.1 = k then some p.2 else lookupKey k rest

/-- Assign `k := v` in an insertion-ordered association list. -/
def insertOrUpdate {α : Type} (m : List (String × α)) (k : String) (v : α) :
    List (String × α) :=
  if (m.map Prod.fst).contains k then
    m.map (fun p => if p.1 = k then (k, v) else p)
  else m ++ [(k, v)]

/-- Build a dict from a list, keying by `key`, keeping only elements passing
`keep` (later elements overwrite earlier ones with the same key). -/
def buildMap {α : Type} (key : α → String) (keep : α → Bool) (l : List α) :
    List (String × α) :=
  l.foldl (fun m a => if keep a then insertOrUpdate m (key a) a else m) []

/-! ## Reconciler (`process_calendar_events`) -/

/-- `appointment_id_to_appointment`: dict comprehension over the desired
appointments. -/
def desired_by_id (future_appointments : List Appointment) :
    List (String × Appointment) :=
  buildMap (fun a => a.appointment_id) (fun _ => true) future_appointments

/-- `event_appointment_id_to_event`: the loop over fetched events, keeping
events with a nonempty appointment id whose start is not before the run
instant. -/
def existing_by_id (future_events : List CalendarEvent) (current_date : BerlinTime) :
    List (String × CalendarEvent) :=
  buildMap (fun e => e.appointment_id)
    (fun e => decide (e.appointment_id ≠ "") && BerlinTime.ble current_date e.start)
    future_events

/-- `events_to_delete`: entries of the existing map whose id is absent from
the desired map (Python iterates this as a set; the entry order here is the
existing map's insertion order). -/
def events_to_delete (future_appointments : List Appointment)
    (future_events : List CalendarEvent) (current_date : BerlinTime) :
    List (String × CalendarEvent) :=
  (existing_by_id future_events current_date).filter
    (fun p => !(((desired_by_id future_appointments).map Prod.fst).contains p.1))

/-- The handling of a single desired-map entry: create when the id is absent
from the existing map, update when present and `needs_update`.  The update
path is wrapped in try/except inside `update_google_calendar_event` (failure
is swallowed, no notification); the create path is not wrapped, so a gateway
failure there propagates and aborts the loop (third component `true`). -/
def stepDesired (fail : GCall → Bool) (existing : List (String × CalendarEvent))
    (aid : String) (appointment : Appointment) : List GCall × List Notif × Bool :=
  match lookupKey aid existing with
  | some event =>
    if needs_update event appointment then
      let call := GCall.update event.id (update_payload appointment)
      if fail call then ([call], [], false)
      else ([call], [updatedNotif appointment], false)
    else ([], [], false)
  | none =>
    let call := GCall.insert (create_payload appointment)
    if fail call then ([call], [], true)
    else ([call], [addedNotif appointment], false)

/-- The create/update loop over the desired map, short-circuiting when a
create aborts the run. -/
def runCreateUpdate (fail : GCall → Bool) (existing : List (String × CalendarEvent)) :
    List (String × Appointment) → List GCall × List Notif × Bool
  | [] => ([], [], false)
  | p :: rest =>
    let s := stepDesired fail existing p.1 p.2
    if s.2.2 then s
    else
      let r := runCreateUpdate fail existing rest
      (s.1 ++ r.1, s.2.1 ++ r.2.1, r.2.2)

/-- `process_calendar_events(service, future_appointments, future_events,
current_date)`.  Returns the gateway calls attempted, the notifications
sent, and whether an uncaught gateway failure aborted the run.  The delete
loop runs first; `delete_google_calendar_event` swallows its own failures
and the cancelled notification is sent outside the try block, so every
delete entry contributes one call and one notification regardless of
`fail`. -/
def process_calendar_events (fail : GCall → Bool)
    (future_appointments : List Appointment) (future_events : List CalendarEvent)
    (current_date : BerlinTime) : List GCall × List Notif × Bool :=
  let deletes := events_to_delete future_appointments future_events current_date
  let r := runCreateUpdate fail (existing_by_id future_events current_date)
    (desired_by_id future_appointments)
  (deletes.map (fun p => GCall.delete p.2.id) ++ r.1,
   deletes.map (fun p => cancelledNotif p.2) ++ r.2.1, r.2.2)

/-! ## Orchestration (`main`) -/

/-- `fetch_future_events`: the Google list call filtered by the private
marker property and `timeMin = now`, capped at `maxResults=100`. -/
def fetch_future_events (calendar : List CalendarEvent) (now : BerlinTime) :
    List CalendarEvent :=
  (calendar.filter (fun e => e.marker && BerlinTime.ble now e.start)).take 100

/-- The fetch-then-reconcile phase of a run (lines 519 and 523 of the
script). -/
def calendarRun (fail : GCall → Bool) (future_appointments : List Appointment)
    (calendar : List CalendarEvent) (now : BerlinTime) :
    List GCall × List Notif × Bool :=
  process_calendar_events fail future_appointments
    (fetch_future_events calendar now) now

/-- Parse a run of decimal digits with accumulator (`int(...)` on a field). -/
def natFromDigitsAux : Nat → List Char → Option Nat
  | acc, [] => some acc
  | acc, c :: cs =>
    if c.isDigit then natFromDigitsAux (acc * 10 + (c.toNat - 48)) cs else none

/-- A numeric field of a date/time string: nonempty and all digits. -/
def strNat? (s : String) : Option Nat :=
  match s.data with
  | [] => none
  | c :: cs => natFromDigitsAux 0 (c :: cs)

/-- Split a character list at a separator character. -/
def splitChar (sep : Char) : List Char → List String
  | [] => [""]
  | x :: xs =>
    match splitChar sep xs with
    | [] => [String.mk [x]]
    | h :: t =>
      if x = sep then "" :: h :: t else String.mk (x :: h.data) :: t

/-- `datetime.strptime(s, '%d.%m.%Y')`: day, month, year. -/
def parseDate (s : String) : Option (Nat × Nat × Nat) :=
  match splitChar '.' s.data with
  | [d, m, y] =>
    match strNat? d, strNat? m, strNat? y with
    | some dd, some mm, some yy =>
      if 1 ≤ dd ∧ dd ≤ 31 ∧ 1 ≤ mm ∧ mm ≤ 12 then some (dd, mm, yy) else none
    | _, _, _ => none
  | _ => none

/-- `datetime.strptime(s, '%H:%M')`: hour, minute. -/
def parseTime (s : String) : Option (Nat × Nat) :=
  match splitChar ':' s.data with
  | [h, m] =>
    match strNat? h, strNat? m with
    | some hh, some mi => if hh ≤ 23 ∧ mi ≤ 59 then some (hh, mi) else none
    | _, _ => none
  | _ => none

/-- `tz.localize(datetime.strptime(f"{date} {time}", '%d.%m.%Y %H:%M'))`. -/
def parseBerlin (date time : String) : Option BerlinTime :=
  match parseDate date, parseTime time with
  | some (dd, mm, yy), some (hh, mi) =>
    some { year := yy, month := mm, day := dd, hour := hh, minute := mi }
  | _, _ => none

/-- The enrichment loop of `main`: parse every raw appointment (a parse
failure anywhere aborts the run, hence `Option`), keep the future ones, and
stamp instants and the appointment id. -/
def enrichAll (now : BerlinTime) : List RawAppointment → Option (List Appointment)
  | [] => some []
  | a :: rest =>
    match parseBerlin a.date a.start_time, parseBerlin a.date a.end_time with
    | some sd, some ed =>
      match enrichAll now rest with
      | some es =>
        if BerlinTime.ble now sd then
          some ({ date := a.date, start_time := a.start_time, end_time := a.end_time,
                  studio_name := a.studio_name, address := a.address, regie := a.regie,
                  start_datetime := sd, end_datetime := ed,
                  appointment_id := generate_appointment_id a } :: es)
        else some es
      | none => none
    | _, _ => none

/-- The whole run (`main` plus the `__main__` wrapper): exit code, gateway
calls attempted, notifications sent.  `loginResult` is the outcome of
`login_with_retry` (`none` = failure after all retries). -/
def mainRun (fail : GCall → Bool) (loginResult : Option (List RawAppointment))
    (calendar : List CalendarEvent) (now : BerlinTime) :
    Nat × List GCall × List Notif :=
  match loginResult with
  | none => (1, [], [])
  | some appointments =>
    if appointments.isEmpty then (0, [], [])
    else
      match enrichAll now appointments with
      | none => (1, [], [])
      | some future_appointments =>
        if future_appointments.isEmpty then (0, [], [])
        else
          let r := calendarRun fail future_appointments calendar now
          (if r.2.2 then 1 else 0, r.1, r.2.1)

/-! ## Extractor (`parse_appointments`)

BeautifulSoup is an external collaborator; a page is modelled as the list of
`<tr style='color: black; background: whitesmoke'>` rows `find_all`
returns, each carrying the pieces of text the parser extracts from it. -/

/-- One matching table row of the appointments page. -/
structure HtmlRow where
  tdCount : Nat
  dateText : String
  timeText : String
  studioText : String
  columnTexts : List String
deriving DecidableEq, Repr

/-- `list.remove(x)` guarded by `x in list`: drop the first occurrence. -/
def removeFirst (x : String) : List String → List String
  | [] => []
  | y :: ys => if y = x then ys else y :: removeFirst x ys

/-- The body of the row loop: split the time range, take the studio name out
of the column texts, and fold the rest into address and note. -/
def rowToAppointment (row : HtmlRow) : RawAppointment :=
  let time_range := row.timeText.replace "\n" " "
  let texts := removeFirst row.studioText row.columnTexts
  let ar := texts.foldl
    (fun p text =>
      if text.startsWith "Regie:" then (p.1, text) else (p.1 ++ text ++ " ", p.2))
    ("", "")
  { date := row.dateText,
    start_time := time_range.take 5,
    end_time := (time_range.drop 5).trim,
    studio_name := row.studioText,
    address := ar.1.trim,
    regie := ar.2 }

/-- `parse_appointments`: only the first 8 matching rows, and only rows with
exactly five `<td>` cells. -/
def parse_appointments (rows : List HtmlRow) : List RawAppointment :=
  (rows.take 8).filterMap
    (fun row => if row.tdCount = 5 then some (rowToAppointment row) else none)

/-! ## Lemmas about the dict model -/

theorem contains_iff_mem (l : List String) (k : String) : l.contains k = true ↔ k ∈ l := by
  simp [List.contains, List.elem_iff]

theorem lookupKey_eq_none {α : Type} (m : List (String × α)) (k : String) :
    lookupKey k m = none ↔ k ∉ m.map Prod.fst := by
  induction m with
  | nil => simp [lookupKey]
  | cons p rest ih =>
    by_cases hp : p.1 = k
    · simp [lookupKey, hp, eq_comm]
    · have hp' : ¬(k = p.1) := fun h => hp h.symm
      simp [lookupKey, hp, hp', ih]

theorem lookupKey_append {α : Type} (l1 l2 : List (String × α)) (k : String) :
    lookupKey k (l1 ++ l2) =
      match lookupKey k l1 with
      | some v => some v
      | none => lookupKey k l2 := by
  induction l1 with
  | nil => simp [lookupKey]
  | cons p rest ih =>
    by_cases hp : p.1 = k <;> simp [lookupKey, hp, ih]

theorem lookupKey_replace {α : Type} (m : List (String × α)) (k k' : String) (v : α) :
    lookupKey k (m.map (fun p => if p.1 = k' then (k', v) else p)) =
      if k' = k ∧ k ∈ m.map Prod.fst then some v else lookupKey k m := by
  induction m with
  | nil => simp [lookupKey]
  | cons p rest ih =>
    simp only [List.map_cons, lookupKey]
    by_cases hp : p.1 = k'
    · by_cases hk : k' = k
      · have hmem : k ∈ p.1 :: rest.map Prod.fst := by
          rw [hp, hk]; exact List.mem_cons_self _ _
        simp [lookupKey, hp, hk, hmem]
      · simp [lookupKey, hp, hk, ih]
    · by_cases hk2 : p.1 = k
      · have hne : ¬(k' = k) := fun h => hp (hk2.trans h.symm)
        have hne' : ¬(k = k') := fun h => hne h.symm
        simp [lookupKey, hp, hk2, hne, hne']
      · have hk2' : ¬(k = p.1) := fun h => hk2 h.symm
        have hmemeq : (k ∈ p.1 :: rest.map Prod.fst) = (k ∈ rest.map Prod.fst) := by
          simp [List.mem_cons, hk2']
        simp [lookupKey, hp, hk2, hk2', ih]
        exact if_congr (and_congr_right' (iff_of_eq hmemeq.symm)) rfl rfl

theorem lookupKey_insertOrUpdate {α : Type} (m : List (String × α)) (k k' : String) (v : α) :
    lookupKey k (insertOrUpdate m k' v) = if k' = k then some v else lookupKey k m := by
  unfold insertOrUpdate
  by_cases hc : (m.map Prod.fst).contains k' = true
  · rw [if_pos hc, lookupKey_replace]
    by_cases hk : k' = k
    · have hmem : k ∈ m.map Prod.fst := hk ▸ (contains_iff_mem _ _).1 hc
      simp [hk, hmem]
    · simp [hk]
  · rw [if_neg hc, lookupKey_append]
    by_cases hk : k' = k
    · have hnot : k ∉ m.map Prod.fst := fun hmem =>
        hc ((contains_iff_mem _ _).2 (hk ▸ hmem))
      have hnone : lookupKey k m = none := (lookupKey_eq_none _ _).2 hnot
      simp [hnone, lookupKey, hk]
    · cases hm : lookupKey k m <;> simp [hm, lookupKey, hk]

theorem keys_insertOrUpdate {α : Type} (m : List (String × α)) (k : String) (v : α) :
    (insertOrUpdate m k v).map Prod.fst =
      if (m.map Prod.fst).contains k then m.map Prod.fst
      else m.map Prod.fst ++ [k] := by
  unfold insertOrUpdate
  by_cases hc : (m.map Prod.fst).contains k = true
  · rw [if_pos hc, if_pos hc, List.map_map]
    apply List.map_congr_left
    intro p hp
    by_cases hpk : p.1 = k <;> simp [hpk]
  · rw [if_neg hc, if_neg hc]
    simp

theorem nodup_keys_insertOrUpdate {α : Type} {m : List (String × α)}
    (h : (m.map Prod.fst).Nodup) (k : String) (v : α) :
    ((insertOrUpdate m k v).map Prod.fst).Nodup := by
  rw [keys_insertOrUpdate]
  by_cases hc : (m.map Prod.fst).contains k = true
  · rw [if_pos hc]; exact h
  · rw [if_neg hc]
    have hnot : k ∉ m.map Prod.fst := fun hmem => hc ((contains_iff_mem _ _).2 hmem)
    simp [List.nodup_append, h, hnot]

theorem nodup_keys_buildMap {α : Type} (key : α → String) (keep : α → Bool) (l : List α) :
    ((buildMap key keep l).map Prod.fst).Nodup := by
  suffices h : ∀ m : List (String × α), (m.map Prod.fst).Nodup →
      ((l.foldl (fun m a => if keep a then insertOrUpdate m (key a) a else m) m).map
        Prod.fst).Nodup by
    exact h [] (by simp)
  induction l with
  | nil => intro m hm; simpa using hm
  | cons a rest ih =>
    intro m hm
    simp only [List.foldl_cons]
    by_cases ha : keep a = true
    · simp only [ha, if_true]
      exact ih _ (nodup_keys_insertOrUpdate hm _ _)
    · simp only [ha, if_false]
      exact ih _ hm

theorem lookupKey_buildMap {α : Type} (key : α → String) (keep : α → Bool)
    (l : List α) (k : String) :
    lookupKey k (buildMap key keep l) =
      (l.filter (fun a => keep a && decide (key a = k))).getLast? := by
  induction l using List.reverseRecOn with
  | nil => simp [buildMap, lookupKey]
  | append_singleton xs a ih =>
    rw [buildMap, List.foldl_append, List.foldl_cons, List.foldl_nil, List.filter_append]
    by_cases ha : keep a = true
    · rw [if_pos ha]
      rw [show (List.foldl (fun m x => if keep x then insertOrUpdate m (key x) x else m)
          [] xs) = buildMap key keep xs from rfl]
      rw [lookupKey_insertOrUpdate]
      by_cases hk : key a = k
      · simp [ha, hk, List.getLast?_concat]
      · simp [ha, hk, ih]
    · rw [if_neg ha]
      rw [show (List.foldl (fun m x => if keep x then insertOrUpdate m (key x) x else m)
          [] xs) = buildMap key keep xs from rfl]
      simp [ha, ih]

theorem mem_insertOrUpdate {α : Type} {m : List (String × α)} {k' : String} {v' : α}
    {p : String × α} (h : p ∈ insertOrUpdate m k' v') : p ∈ m ∨ p = (k', v') := by
  unfold insertOrUpdate at h
  by_cases hc : (m.map Prod.fst).contains k' = true
  · rw [if_pos hc] at h
    rcases List.mem_map.1 h with ⟨q, hq, heq⟩
    by_cases hqk : q.1 = k'
    · right; rw [if_pos hqk] at heq; exact heq.symm
    · left; rw [if_neg hqk] at heq; exact heq ▸ hq
  · rw [if_neg hc] at h
    rcases List.mem_append.1 h with h1 | h2
    · left; exact h1
    · right; simpa using h2

theorem mem_buildMap {α : Type} {key : α → String} {keep : α → Bool} {l : List α}
    {k : String} {v : α} (h : (k, v) ∈ buildMap key keep l) :
    v ∈ l ∧ keep v = true ∧ key v = k := by
  suffices aux : ∀ m : List (String × α),
      (k, v) ∈ l.foldl (fun m a => if keep a then insertOrUpdate m (key a) a else m) m →
      (k, v) ∈ m ∨ (v ∈ l ∧ keep v = true ∧ key v = k) by
    rcases aux [] h with h0 | h1
    · simp at h0
    · exact h1
  clear h
  induction l with
  | nil => intro m hm; left; simpa using hm
  | cons a rest ih =>
    intro m hm
    simp only [List.foldl_cons] at hm
    rcases ih (if keep a then insertOrUpdate m (key a) a else m) hm with hin | hfound
    · by_cases ha : keep a = true
      · rw [if_pos ha] at hin
        rcases mem_insertOrUpdate hin with h1 | h2
        · left; exact h1
        · right
          have hv : v = a := congrArg Prod.snd h2
          have hk : k = key a := congrArg Prod.fst h2
          subst hv
          exact ⟨List.mem_cons_self _ _, ha, hk.symm⟩
      · rw [if_neg ha] at hin
        left; exact hin
    · right; exact ⟨List.mem_cons_of_mem _ hfound.1, hfound.2⟩

theorem lookupKey_of_mem_nodup {α : Type} {m : List (String × α)} {k : String} {v : α}
    (hmem : (k, v) ∈ m) (hnd : (m.map Prod.fst).Nodup) : lookupKey k m = some v := by
  induction m with
  | nil => simp at hmem
  | cons p rest ih =>
    rcases List.mem_cons.1 hmem with h1 | h2
    · rw [← h1]; simp [lookupKey]
    · have hp : p.1 ≠ k := by
        intro he
        have hk : k ∈ rest.map Prod.fst := List.mem_map.2 ⟨(k, v), h2, rfl⟩
        have hnd' : p.1 ∉ rest.map Prod.fst :=
          (List.nodup_cons.1 (by simpa using hnd)).1
        exact hnd' (he ▸ hk)
      have hrest : (rest.map Prod.fst).Nodup := (List.nodup_cons.1 (by simpa using hnd)).2
      simp [lookupKey, hp, ih h2 hrest]

/-! ## Concrete fixtures used by witnesses -/

def tNow : BerlinTime := ⟨2024, 12, 1, 0, 0⟩

def tStart : BerlinTime := ⟨2025, 1, 1, 10, 0⟩

def tEnd : BerlinTime := ⟨2025, 1, 1, 11, 0⟩

def apptA : Appointment :=
  { date := "01.01.2025", start_time := "10:00", end_time := "11:00",
    studio_name := "A", address := "X", regie := "",
    start_datetime := tStart, end_datetime := tEnd, appointment_id := "idA" }

def eventA : CalendarEvent :=
  { id := "E1", summary := "A", location := "X", description := "",
    start := tStart, «end» := tEnd, marker := true, appointment_id := "idA" }

def apptB : Appointment :=
  { date := "02.01.2025", start_time := "10:00", end_time := "11:00",
    studio_name := "B", address := "Y", regie := "",
    start_datetime := ⟨2025, 1, 2, 10, 0⟩, end_datetime := ⟨2025, 1, 2, 11, 0⟩,
    appointment_id := "idB" }

def apptDup1 : Appointment :=
  { date := "01.01.2025", start_time := "10:00", end_time := "11:00",
    studio_name := "A", address := "X", regie := "",
    start_datetime := tStart, end_datetime := tEnd, appointment_id := "dup" }

def apptDup2 : Appointment :=
  { date := "01.01.2025", start_time := "12:00", end_time := "13:00",
    studio_name := "B", address := "Y", regie := "",
    start_datetime := ⟨2025, 1, 1, 12, 0⟩, end_datetime := ⟨2025, 1, 1, 13, 0⟩,
    appointment_id := "dup" }

def rawA : RawAppointment :=
  ⟨"01.01.2025", "10:00", "11:00", "A", "X", ""⟩

def rawPast : RawAppointment :=
  ⟨"01.01.2020", "10:00", "11:00", "P", "X", ""⟩

def eventSpec : CalendarEvent :=
  { id := "E9", summary := "A", location := "X", description := "",
    start := tStart, «end» := tEnd, marker := true,
    appointment_id := generate_appointment_id rawA }

def eventU : CalendarEvent :=
  { id := "U1", summary := "untagged", location := "", description := "",
    start := tStart, «end» := tEnd, marker := false, appointment_id := "x" }

def apptGen : Appointment :=
  { date := "01.01.2025", start_time := "10:00", end_time := "11:00",
    studio_name := "A", address := "X", regie := "",
    start_datetime := tStart, end_datetime := tEnd,
    appointment_id := generate_appointment_id rawA }

def failInserts : GCall → Bool
  | GCall.insert _ => true
  | _ => false

def failDeletes : GCall → Bool
  | GCall.delete _ => true
  | _ => false

/-! ## Claim theorems -/

/-- C1: the delete set computed by `process_calendar_events` is exactly the
set of appointment ids present in `existing_by_id` but absent from
`desired_by_id`; consequently an id present in both maps is never deleted,
whatever the order of the input lists. -/
theorem events_to_delete_exact (future_appointments : List Appointment)
    (future_events : List CalendarEvent) (current_date : BerlinTime) (k : String) :
    (k ∈ (events_to_delete future_appointments future_events current_date).map Prod.fst ↔
      k ∈ (existing_by_id future_events current_date).map Prod.fst ∧
        k ∉ (desired_by_id future_appointments).map Prod.fst) ∧
    (k ∈ (existing_by_id future_events current_date).map Prod.fst →
      k ∈ (desired_by_id future_appointments).map Prod.fst →
      k ∉ (events_to_delete future_appointments future_events current_date).map Prod.fst) := by
  have hiff : k ∈ (events_to_delete future_appointments future_events current_date).map
      Prod.fst ↔
      k ∈ (existing_by_id future_events current_date).map Prod.fst ∧
        k ∉ (desired_by_id future_appointments).map Prod.fst := by
    constructor
    · intro hk
      rcases List.mem_map.1 hk with ⟨p, hp, hpk⟩
      rcases List.mem_filter.1 hp with ⟨hpex, hpred⟩
      refine ⟨List.mem_map.2 ⟨p, hpex, hpk⟩, ?_⟩
      intro hdes
      rw [hpk] at hpred
      rw [(contains_iff_mem _ _).2 hdes] at hpred
      simp at hpred
    · rintro ⟨hex, hnd⟩
      rcases List.mem_map.1 hex with ⟨p, hp, hpk⟩
      refine List.mem_map.2 ⟨p, List.mem_filter.2 ⟨hp, ?_⟩, hpk⟩
      have hcf : ((desired_by_id future_appointments).map Prod.fst).contains p.1 = false := by
        rw [hpk]
        cases hcc : ((desired_by_id future_appointments).map Prod.fst).contains k
        · rfl
        · exact absurd ((contains_iff_mem _ _).1 hcc) hnd
      rw [hcf]; rfl
  exact ⟨hiff, fun hex hdes hdel => absurd hdes (hiff.1 hdel).2⟩

theorem events_to_delete_exact_witness :
    "idA" ∉ (events_to_delete [apptA] [eventA] tNow).map Prod.fst :=
  (events_to_delete_exact [apptA] [eventA] tNow "idA").2 (by decide) (by decide)

/-- C2: for a desired appointment whose id is present in the existing map,
an update call is issued if and only if the event's start, end, location, or
trimmed description differs from the appointment's corresponding field; the
update payload replaces summary, location, description, start and end while
carrying the marker and the appointment's stored id; when all four compared
fields match, no gateway call and no notification is produced. -/
theorem update_iff_needs_update (fail : GCall → Bool)
    (existing : List (String × CalendarEvent)) (aid : String)
    (appointment : Appointment) (event : CalendarEvent)
    (hlook : lookupKey aid existing = some event) :
    ((stepDesired fail existing aid appointment).1 =
        [GCall.update event.id (update_payload appointment)] ↔
      (event.start ≠ appointment.start_datetime ∨
        event.«end» ≠ appointment.end_datetime ∨
        event.location ≠ appointment.address ∨
        event.description.trim ≠ appointment.regie.trim)) ∧
    (event.start = appointment.start_datetime →
      event.«end» = appointment.end_datetime →
      event.location = appointment.address →
      event.description.trim = appointment.regie.trim →
      stepDesired fail existing aid appointment = ([], [], false)) ∧
    update_payload appointment =
      { summary := appointment.studio_name, location := appointment.address,
        description := appointment.regie, start := appointment.start_datetime,
        «end» := appointment.end_datetime, marker := true,
        appointment_id := appointment.appointment_id } := by
  have hiff : needs_update event appointment = true ↔
      (event.start ≠ appointment.start_datetime ∨
        event.«end» ≠ appointment.end_datetime ∨
        event.location ≠ appointment.address ∨
        event.description.trim ≠ appointment.regie.trim) := by
    simp [needs_update, or_assoc]
  by_cases h : needs_update event appointment = true
  · refine ⟨?_, ?_, rfl⟩
    · have hcalls : (stepDesired fail existing aid appointment).1 =
          [GCall.update event.id (update_payload appointment)] := by
        unfold stepDesired
        rw [hlook]
        simp only [h, if_true]
        cases fail (GCall.update event.id (update_payload appointment)) <;> simp
      exact iff_of_true hcalls (hiff.1 h)
    · intro h1 h2 h3 h4
      exact absurd (hiff.1 h) (by simp [h1, h2, h3, h4])
  · have hfalse : needs_update event appointment = false := by
      cases hnu : needs_update event appointment
      · rfl
      · exact absurd hnu h
    have hstep : stepDesired fail existing aid appointment = ([], [], false) := by
      unfold stepDesired
      rw [hlook]
      simp [hfalse]
    refine ⟨?_, fun _ _ _ _ => hstep, rfl⟩
    rw [hstep]
    simp only [iff_iff_implies_and_implies]
    constructor
    · intro hcontra
      exact absurd hcontra.symm (List.cons_ne_nil _ _)
    · intro hcond
      exact absurd (hiff.2 hcond) h

theorem update_iff_needs_update_witness :
    stepDesired (fun _ => false) [("idA", eventA)] "idA" apptA = ([], [], false) :=
  (update_iff_needs_update (fun _ => false) [("idA", eventA)] "idA" apptA eventA
    (by decide)).2.1 rfl rfl rfl rfl

/-- C5: `generate_appointment_id` is a pure deterministic function of
exactly the three fields date, studio name, and note: calling it twice on
the same appointment yields the same id, and two appointments agreeing on
those three fields (in particular differing only in start time, end time,
or address) receive the same id. -/
theorem generate_appointment_id_pure (a b : RawAppointment)
    (hd : a.date = b.date) (hs : a.studio_name = b.studio_name)
    (hr : a.regie = b.regie) :
    generate_appointment_id a = generate_appointment_id a ∧
    generate_appointment_id a = generate_appointment_id b := by
  refine ⟨rfl, ?_⟩
  unfold generate_appointment_id
  rw [hd, hs, hr]

theorem generate_appointment_id_pure_witness :
    generate_appointment_id
        ⟨"01.01.2025", "10:00", "11:00", "A", "X", ""⟩ =
      generate_appointment_id
        ⟨"01.01.2025", "12:00", "13:00", "A", "Y", ""⟩ :=
  (generate_appointment_id_pure _ _ rfl rfl rfl).2

/-- C10: `parse_appointments` returns at most 8 appointments: only the
first 8 matching rows are considered, so the result is unchanged if all
rows beyond the first 8 are discarded. -/
theorem parse_appointments_at_most_eight (rows : List HtmlRow) :
    (parse_appointments rows).length ≤ 8 ∧
    parse_appointments rows = parse_appointments (rows.take 8) := by
  constructor
  · calc (parse_appointments rows).length ≤ (rows.take 8).length :=
        List.length_filterMap_le _ _
    _ ≤ 8 := List.length_take_le 8 rows
  · simp [parse_appointments, List.take_take]

/-- C6: when two desired appointments share an appointment id, the desired
map keeps the one later in iteration order; the earlier one is not an entry
of the map, so it never reaches the create/update loop. -/
theorem later_duplicate_overwrites (pre mid post : List Appointment) (a1 a2 : Appointment)
    (hid : a1.appointment_id = a2.appointment_id)
    (hpost : ∀ a ∈ post, a.appointment_id ≠ a2.appointment_id)
    (hne : a1 ≠ a2) :
    lookupKey a2.appointment_id (desired_by_id (pre ++ a1 :: mid ++ a2 :: post)) =
      some a2 ∧
    (a2.appointment_id, a1) ∉ desired_by_id (pre ++ a1 :: mid ++ a2 :: post) := by
  have hlook : lookupKey a2.appointment_id
      (desired_by_id (pre ++ a1 :: mid ++ a2 :: post)) = some a2 := by
    unfold desired_by_id
    rw [lookupKey_buildMap]
    have hfp : post.filter
        (fun a => true && decide (a.appointment_id = a2.appointment_id)) = [] := by
      apply List.filter_eq_nil_iff.2
      intro a ha
      simp [hpost a ha]
    simp only [List.filter_append, List.filter_cons, hid, hfp]
    simp only [decide_True, Bool.and_true, Bool.and_self, if_true]
    exact List.getLast?_concat _
  refine ⟨hlook, ?_⟩
  intro hmem
  have hlk := lookupKey_of_mem_nodup hmem
    (by unfold desired_by_id; exact nodup_keys_buildMap _ _ _)
  rw [hlook] at hlk
  exact hne (Option.some.inj hlk).symm

theorem later_duplicate_overwrites_witness :
    lookupKey "dup" (desired_by_id [apptDup1, apptDup2]) = some apptDup2 ∧
    ("dup", apptDup1) ∉ desired_by_id [apptDup1, apptDup2] :=
  later_duplicate_overwrites [] [] [] apptDup1 apptDup2 rfl
    (fun a ha => absurd ha (List.not_mem_nil a)) (by decide)

/-- Gateway failures on update calls and delete calls are swallowed by the
per-call try/except blocks: as long as no insert call fails, the run never
aborts and attempts exactly the calls it would attempt with a fully healthy
gateway (helper for C3). -/
theorem runCreateUpdate_no_insert_fail (fail : GCall → Bool)
    (E : List (String × CalendarEvent)) (hins : ∀ p, fail (GCall.insert p) = false) :
    ∀ M : List (String × Appointment),
      (runCreateUpdate fail E M).1 = (runCreateUpdate (fun _ => false) E M).1 ∧
      (runCreateUpdate fail E M).2.2 = false
  | [] => ⟨rfl, rfl⟩
  | p :: rest => by
    have ih := runCreateUpdate_no_insert_fail fail E hins rest
    have hstep : (stepDesired fail E p.1 p.2).1 =
        (stepDesired (fun _ => false) E p.1 p.2).1 ∧
        (stepDesired fail E p.1 p.2).2.2 = false := by
      unfold stepDesired
      cases lookupKey p.1 E with
      | some event =>
        by_cases hnu : needs_update event p.2 = true
        · simp only [hnu, if_true]
          cases fail (GCall.update event.id (update_payload p.2)) <;> simp
        · simp [hnu]
      | none => simp [hins]
    have hnof : (stepDesired (fun _ => false) E p.1 p.2).2.2 = false := by
      unfold stepDesired
      cases lookupKey p.1 E with
      | some event => by_cases hnu : needs_update event p.2 = true <;> simp [hnu]
      | none => simp
    simp only [runCreateUpdate]
    rw [hstep.2, hnof]
    simp only [Bool.false_eq_true, if_false]
    exact ⟨by rw [hstep.1, ih.1], ih.2⟩

/-- C3 (amended): a gateway failure on a single update or delete call is
caught and logged and the run processes the remaining ids (same calls as a
failure-free run, and no abort); an insert failure is not isolated this
way. -/
theorem update_delete_failures_isolated (fail : GCall → Bool)
    (future_appointments : List Appointment) (future_events : List CalendarEvent)
    (current_date : BerlinTime)
    (hins : ∀ p, fail (GCall.insert p) = false) :
    (process_calendar_events fail future_appointments future_events current_date).1 =
      (process_calendar_events (fun _ => false) future_appointments future_events
        current_date).1 ∧
    (process_calendar_events fail future_appointments future_events
      current_date).2.2 = false := by
  have key := runCreateUpdate_no_insert_fail fail
    (existing_by_id future_events current_date) hins
    (desired_by_id future_appointments)
  constructor
  · simp only [process_calendar_events]
    rw [key.1]
  · simp only [process_calendar_events]
    exact key.2

theorem update_delete_failures_isolated_witness :
    (process_calendar_events failDeletes [apptA] [] tNow).1 =
      (process_calendar_events (fun _ => false) [apptA] [] tNow).1 ∧
    (process_calendar_events failDeletes [apptA] [] tNow).2.2 = false :=
  update_delete_failures_isolated failDeletes [apptA] [] tNow (fun _ => rfl)

/-- C3 (counterexample to the claim as stated): a gateway failure on a
create call is not caught — the run aborts and the remaining ids are not
processed.  With two new appointments and a gateway failing every insert,
only the first insert is attempted and the abort flag is set. -/
theorem create_failure_aborts_run :
    process_calendar_events failInserts [apptA, apptB] [] tNow =
      ([GCall.insert (create_payload apptA)], [], true) ∧
    GCall.insert (create_payload apptB) ∉
      (process_calendar_events failInserts [apptA, apptB] [] tNow).1 := by
  have h : process_calendar_events failInserts [apptA, apptB] [] tNow =
      ([GCall.insert (create_payload apptA)], [], true) := rfl
  refine ⟨h, ?_⟩
  rw [h]
  simp [create_payload, apptA, apptB]

/-- C9: if login fails after the bounded retries the run exits with a
non-zero code, and if the extractor yields zero appointments it exits with
code 0; in both cases no gateway call is attempted and no notification is
sent. -/
theorem early_exit_no_ops (fail : GCall → Bool)
    (loginResult : Option (List RawAppointment)) (calendar : List CalendarEvent)
    (now : BerlinTime) (h : loginResult = none ∨ loginResult = some []) :
    (mainRun fail loginResult calendar now).2.1 = [] ∧
    (mainRun fail loginResult calendar now).2.2 = [] ∧
    (loginResult = none → (mainRun fail loginResult calendar now).1 = 1) ∧
    (loginResult = some [] → (mainRun fail loginResult calendar now).1 = 0) := by
  rcases h with h | h <;> subst h <;> simp [mainRun]

theorem early_exit_no_ops_witness :
    (mainRun (fun _ => false) none [] tNow).2.1 = [] ∧
    (mainRun (fun _ => false) none [] tNow).2.2 = [] ∧
    ((none : Option (List RawAppointment)) = none →
      (mainRun (fun _ => false) none [] tNow).1 = 1) ∧
    ((none : Option (List RawAppointment)) = some [] →
      (mainRun (fun _ => false) none [] tNow).1 = 0) :=
  early_exit_no_ops (fun _ => false) none [] tNow (Or.inl rfl)

/-- C4 (counterexample to the claim as stated): with no future appointment
and exactly one managed event whose id is computed from
("01.01.2025", "A", ""), the run issues no delete call and sends no
notification — `main` skips `process_calendar_events` entirely when the
desired set is empty, instead of deleting the stale event. -/
theorem empty_desired_issues_no_delete :
    (mainRun (fun _ => false) (some [rawPast]) [eventSpec] tNow).2.1 = [] ∧
    (mainRun (fun _ => false) (some [rawPast]) [eventSpec] tNow).2.2 = [] ∧
    (mainRun (fun _ => false) (some [rawPast]) [eventSpec] tNow).1 = 0 :=
  ⟨rfl, rfl, rfl⟩

/-- C4 (amended): when the run's desired set is empty (the extractor's
appointments contain no future entry), the run skips all calendar
processing: exit code 0, no gateway calls, no notifications — the existing
managed event is left in place. -/
theorem empty_desired_skips_calendar_ops (fail : GCall → Bool)
    (appointments : List RawAppointment) (calendar : List CalendarEvent)
    (now : BerlinTime) (h : enrichAll now appointments = some []) :
    mainRun fail (some appointments) calendar now = (0, [], []) := by
  unfold mainRun
  by_cases happ : appointments.isEmpty = true
  · simp [happ]
  · simp [happ, h]

theorem empty_desired_skips_calendar_ops_witness :
    enrichAll tNow [rawPast] = some [] ∧
    mainRun (fun _ => false) (some [rawPast]) [eventSpec] tNow = (0, [], []) :=
  ⟨rfl, empty_desired_skips_calendar_ops (fun _ => false) [rawPast] [eventSpec] tNow rfl⟩

theorem lookupKey_mem {α : Type} {m : List (String × α)} {k : String} {v : α}
    (h : lookupKey k m = some v) : (k, v) ∈ m := by
  induction m with
  | nil => simp [lookupKey] at h
  | cons p rest ih =>
    by_cases hp : p.1 = k
    · simp only [lookupKey, if_pos hp] at h
      have hv : v = p.2 := (Option.some.inj h).symm
      subst hv
      rw [← hp]
      exact List.mem_cons_self _ _
    · simp only [lookupKey, if_neg hp] at h
      exact List.mem_cons_of_mem _ (ih h)

theorem mem_runCreateUpdate_calls {fail : GCall → Bool}
    {E : List (String × CalendarEvent)} {M : List (String × Appointment)} {c : GCall}
    (h : c ∈ (runCreateUpdate fail E M).1) :
    ∃ p ∈ M, c ∈ (stepDesired fail E p.1 p.2).1 := by
  induction M with
  | nil => simp [runCreateUpdate] at h
  | cons p rest ih =>
    simp only [runCreateUpdate] at h
    by_cases hab : (stepDesired fail E p.1 p.2).2.2 = true
    · rw [if_pos hab] at h
      exact ⟨p, List.mem_cons_self _ _, h⟩
    · rw [if_neg hab] at h
      rcases List.mem_append.1 h with h1 | h2
      · exact ⟨p, List.mem_cons_self _ _, h1⟩
      · obtain ⟨q, hq, hcq⟩ := ih h2
        exact ⟨q, List.mem_cons_of_mem _ hq, hcq⟩

theorem stepDesired_calls_cases {fail : GCall → Bool}
    {E : List (String × CalendarEvent)} {aid : String} {ap : Appointment} {c : GCall}
    (h : c ∈ (stepDesired fail E aid ap).1) :
    (∃ event, lookupKey aid E = some event ∧
      c = GCall.update event.id (update_payload ap)) ∨
    c = GCall.insert (create_payload ap) := by
  unfold stepDesired at h
  cases hl : lookupKey aid E with
  | some event =>
    rw [hl] at h
    by_cases hnu : needs_update event ap = true
    · left
      refine ⟨event, rfl, ?_⟩
      simp only [hnu, if_true] at h
      by_cases hf : fail (GCall.update event.id (update_payload ap)) = true <;>
        simp [hf] at h <;> exact h
    · simp [hnu] at h
  | none =>
    rw [hl] at h
    right
    by_cases hf : fail (GCall.insert (create_payload ap)) = true <;>
      simp [hf] at h <;> exact h

/-- C8: every update or delete call the run attempts targets the provider id
of a calendar entry that carries the marker and a nonempty appointment id;
consequently a calendar entry without the marker (whose provider id is not
shared with a marked entry) is never the target of any call. -/
theorem untagged_events_untouched (fail : GCall → Bool)
    (future_appointments : List Appointment) (calendar : List CalendarEvent)
    (now : BerlinTime) :
    (∀ c ∈ (calendarRun fail future_appointments calendar now).1,
      ∀ eid, c.targetId = some eid →
        ∃ e ∈ calendar, e.marker = true ∧ e.appointment_id ≠ "" ∧ e.id = eid) ∧
    (∀ e0 ∈ calendar, e0.marker = false →
      (∀ e ∈ calendar, e.marker = true → e.id ≠ e0.id) →
      ∀ c ∈ (calendarRun fail future_appointments calendar now).1,
        c.targetId ≠ some e0.id) := by
  have hofmap : ∀ k : String, ∀ e : CalendarEvent,
      (k, e) ∈ existing_by_id (fetch_future_events calendar now) now →
      e ∈ calendar ∧ e.marker = true ∧ e.appointment_id ≠ "" := by
    intro k e hmem
    have hb := @mem_buildMap CalendarEvent (fun e => e.appointment_id)
      (fun e => decide (e.appointment_id ≠ "") && BerlinTime.ble now e.start)
      (fetch_future_events calendar now) k e hmem
    obtain ⟨hfetch, hkeep, _⟩ := hb
    obtain ⟨hcal, hmk⟩ := List.mem_filter.1 (List.mem_of_mem_take hfetch)
    rw [Bool.and_eq_true] at hmk hkeep
    exact ⟨hcal, hmk.1, of_decide_eq_true hkeep.1⟩
  have part1 : ∀ c ∈ (calendarRun fail future_appointments calendar now).1,
      ∀ eid, c.targetId = some eid →
        ∃ e ∈ calendar, e.marker = true ∧ e.appointment_id ≠ "" ∧ e.id = eid := by
    intro c hc eid htgt
    simp only [calendarRun, process_calendar_events] at hc
    rcases List.mem_append.1 hc with hdel | hcu
    · rcases List.mem_map.1 hdel with ⟨p, hp, hpc⟩
      have hpe : p ∈ existing_by_id (fetch_future_events calendar now) now :=
        (List.mem_filter.1 hp).1
      obtain ⟨hcal, hmk, hne⟩ := hofmap p.1 p.2 hpe
      rw [← hpc] at htgt
      have heid : eid = p.2.id := (Option.some.inj htgt).symm
      exact ⟨p.2, hcal, hmk, hne, heid.symm⟩
    · obtain ⟨q, hq, hcq⟩ := mem_runCreateUpdate_calls hcu
      rcases stepDesired_calls_cases hcq with ⟨event, hl, hceq⟩ | hceq
      · have hmem := lookupKey_mem hl
        obtain ⟨hcal, hmk, hne⟩ := hofmap q.1 event hmem
        rw [hceq] at htgt
        have heid : eid = event.id := (Option.some.inj htgt).symm
        exact ⟨event, hcal, hmk, hne, heid.symm⟩
      · rw [hceq] at htgt
        simp [GCall.targetId] at htgt
  refine ⟨part1, ?_⟩
  intro e0 he0 hm0 hdisj c hc heq
  obtain ⟨e, he, hmark, hne, hid⟩ := part1 c hc e0.id heq
  exact hdisj e he hmark hid

theorem generate_appointment_id_ne_empty (a : RawAppointment) :
    generate_appointment_id a ≠ "" :=
  md5Hex_ne_empty _

/-- If every entry of the desired map resolves in the existing map to an
event needing no update, the create/update loop does nothing (helper for
C7). -/
theorem runCreateUpdate_all_matched (E : List (String × CalendarEvent)) :
    ∀ M : List (String × Appointment),
      (∀ p ∈ M, ∃ event, lookupKey p.1 E = some event ∧
        needs_update event p.2 = false) →
      runCreateUpdate (fun _ => false) E M = ([], [], false)
  | [], _ => rfl
  | p :: rest, h => by
    obtain ⟨event, hl, hnu⟩ := h p (List.mem_cons_self _ _)
    have hstep : stepDesired (fun _ => false) E p.1 p.2 = ([], [], false) := by
      unfold stepDesired
      rw [hl]
      simp [hnu]
    have ih := runCreateUpdate_all_matched E rest
      (fun q hq => h q (List.mem_cons_of_mem _ hq))
    simp [runCreateUpdate, hstep, ih]

/-- C7: running the reconciler a second time with the same desired set,
against exactly the events the first run's create/update payloads stamped
(ids as computed by `generate_appointment_id`, all still in the future),
produces zero create, update and delete operations, no notifications, and
no abort. -/
theorem second_run_noop (future_appointments : List Appointment) (now : BerlinTime)
    (prov : Appointment → String)
    (hid : ∀ a ∈ future_appointments,
      a.appointment_id = generate_appointment_id a.toRaw)
    (hfut : ∀ a ∈ future_appointments,
      BerlinTime.ble now a.start_datetime = true) :
    process_calendar_events (fun _ => false) future_appointments
      (future_appointments.map (fun a => eventFromPayload (prov a) (create_payload a)))
      now = ([], [], false) := by
  have hfilter : ∀ k : String,
      (future_appointments.map
        (fun a => eventFromPayload (prov a) (create_payload a))).filter
        (fun e => (decide (e.appointment_id ≠ "") && BerlinTime.ble now e.start) &&
          decide (e.appointment_id = k)) =
      (future_appointments.filter
        (fun a => true && decide (a.appointment_id = k))).map
        (fun a => eventFromPayload (prov a) (create_payload a)) := by
    intro k
    rw [List.filter_map]
    congr 1
    apply List.filter_congr
    intro a ha
    simp only [Function.comp_apply]
    have h1 : (eventFromPayload (prov a) (create_payload a)).appointment_id =
        generate_appointment_id a.toRaw := rfl
    have h2 : (eventFromPayload (prov a) (create_payload a)).start =
        a.start_datetime := rfl
    rw [h1, h2, hid a ha]
    simp [generate_appointment_id_ne_empty, hfut a ha]
  have hlook : ∀ k : String,
      lookupKey k (existing_by_id
        (future_appointments.map
          (fun a => eventFromPayload (prov a) (create_payload a))) now) =
      Option.map (fun a => eventFromPayload (prov a) (create_payload a))
        (lookupKey k (desired_by_id future_appointments)) := by
    intro k
    unfold existing_by_id desired_by_id
    rw [lookupKey_buildMap, lookupKey_buildMap, hfilter k, List.getLast?_map]
  have hdel : events_to_delete future_appointments
      (future_appointments.map
        (fun a => eventFromPayload (prov a) (create_payload a))) now = [] := by
    unfold events_to_delete
    apply List.filter_eq_nil_iff.2
    intro p hp
    have hl : lookupKey p.1 (existing_by_id
        (future_appointments.map
          (fun a => eventFromPayload (prov a) (create_payload a))) now) = some p.2 :=
      lookupKey_of_mem_nodup hp
        (by unfold existing_by_id; exact nodup_keys_buildMap _ _ _)
    rw [hlook p.1] at hl
    have hne : lookupKey p.1 (desired_by_id future_appointments) ≠ none := by
      intro h0
      rw [h0] at hl
      simp at hl
    have hmemk : p.1 ∈ (desired_by_id future_appointments).map Prod.fst := by
      by_contra hc
      exact hne ((lookupKey_eq_none _ _).2 hc)
    rw [(contains_iff_mem _ _).2 hmemk]
    simp
  have hrun : runCreateUpdate (fun _ => false)
      (existing_by_id
        (future_appointments.map
          (fun a => eventFromPayload (prov a) (create_payload a))) now)
      (desired_by_id future_appointments) = ([], [], false) := by
    apply runCreateUpdate_all_matched
    intro p hp
    have hlp : lookupKey p.1 (desired_by_id future_appointments) = some p.2 :=
      lookupKey_of_mem_nodup hp
        (by unfold desired_by_id; exact nodup_keys_buildMap _ _ _)
    refine ⟨eventFromPayload (prov p.2) (create_payload p.2), ?_, ?_⟩
    · rw [hlook p.1, hlp]
      rfl
    · simp [needs_update, eventFromPayload, create_payload]
  simp [process_calendar_events, hdel, hrun]

theorem second_run_noop_witness :
    process_calendar_events (fun _ => false) [apptGen]
      [eventFromPayload "P1" (create_payload apptGen)] tNow = ([], [], false) :=
  second_run_noop [apptGen] tNow (fun _ => "P1")
    (by intro a ha; rw [List.mem_singleton] at ha; subst ha; rfl)
    (by intro a ha; rw [List.mem_singleton] at ha; subst ha; rfl)

theorem untagged_events_untouched_witness :
    (∃ e ∈ [eventA, eventU], e.marker = true ∧ e.appointment_id ≠ "" ∧ e.id = "E1") ∧
    GCall.targetId (GCall.delete "E1") ≠ some eventU.id :=
  ⟨(untagged_events_untouched (fun _ => false) [] [eventA, eventU] tNow).1
      (GCall.delete "E1") (by decide) "E1" rfl,
    (untagged_events_untouched (fun _ => false) [] [eventA, eventU] tNow).2
      eventU (by decide) rfl (by decide) (GCall.delete "E1") (by decide)⟩

end SynchronSync
